import Mathlib

/-!
Verification of the ECC Engine of `ECT_exercises_questions.ipynb`.

The notebook's only algorithmic artifact is `compute_ecc`, whose Python body
consists solely of a docstring (it is an exercise stub).  We embed two things:

* `compute_ecc_src`: the literal source function, whose body performs no
  computation and returns Python `None`;
* `compute_ecc`: the ECC Engine modelled from the spec, since the
  implementation is absent from the source.

Points are triples of rationals (finite reals), the sweep parameter is an
integer, and the result is either an error from the spec's error taxonomy or
the list of Euler characteristic values.
-/

/-- A 3D point (x, y, z) with rational (finite real) coordinates. -/
structure Point3 where
  x : ℚ
  y : ℚ
  z : ℚ
deriving DecidableEq

/-- Dot product of two 3D vectors. -/
def dot (a b : Point3) : ℚ :=
  a.x * b.x + a.y * b.y + a.z * b.z

/-- The per-point projection value `proj(p) = dot(normal, p) - dot(normal, starting_point)`. -/
def proj (normal starting_point p : Point3) : ℚ :=
  dot normal p - dot normal starting_point

/-- A point `p` is included at step `t` iff `dot(normal, p) - dot(normal, starting_point) < t`. -/
def includedAt (normal starting_point : Point3) (t : ℤ) (p : Point3) : Bool :=
  decide (proj normal starting_point p < (t : ℚ))

/-- `point_count(t)`: number of points included at step `t`. -/
def pointCount (normal starting_point : Point3) (data : List Point3) (t : ℤ) : ℕ :=
  (data.filter (includedAt normal starting_point t)).length

/-- The implicit edges of the path: consecutive point pairs (i, i+1). -/
def pathEdges (data : List Point3) : List (Point3 × Point3) :=
  data.zip data.tail

/-- An edge is counted at step `t` iff BOTH its endpoints are included at step `t`. -/
def edgeIncludedAt (normal starting_point : Point3) (t : ℤ) (e : Point3 × Point3) : Bool :=
  includedAt normal starting_point t e.1 && includedAt normal starting_point t e.2

/-- `edge_count(t)`: number of path edges with both endpoints included at step `t`. -/
def edgeCount (normal starting_point : Point3) (data : List Point3) (t : ℤ) : ℕ :=
  ((pathEdges data).filter (edgeIncludedAt normal starting_point t)).length

/-- The threshold of an edge: the later of its endpoints' projection values.
The spec's efficient design counts an edge at step `t` iff its threshold is `< t`. -/
def edgeThreshold (normal starting_point : Point3) (e : Point3 × Point3) : ℚ :=
  max (proj normal starting_point e.1) (proj normal starting_point e.2)

/-- Per-edge thresholds `edge_threshold(i) = max(proj(p_i), proj(p_i+1))`, precomputed once. -/
def edgeThresholds (normal starting_point : Point3) (data : List Point3) : List ℚ :=
  (pathEdges data).map (edgeThreshold normal starting_point)

/-- Precomputed projection values of all points. -/
def projList (normal starting_point : Point3) (data : List Point3) : List ℚ :=
  data.map (proj normal starting_point)

/-- The Euler characteristic at step `t`, computed from the precomputed
projection values and edge thresholds: points with `proj < t` minus edges with
`threshold < t`. -/
def eccAt (normal starting_point : Point3) (data : List Point3) (t : ℤ) : ℤ :=
  (((projList normal starting_point data).filter (fun q => decide (q < (t : ℚ)))).length : ℤ)
    - (((edgeThresholds normal starting_point data).filter (fun q => decide (q < (t : ℚ)))).length : ℤ)

/-- Whether a vector is the zero vector. -/
def zeroVec (v : Point3) : Bool :=
  decide (v.x = 0) && decide (v.y = 0) && decide (v.z = 0)

/-- The spec's error taxonomy: InvalidRangeError, InvalidDirectionError, EmptyInputError. -/
inductive ECCError where
  | invalidRange
  | invalidDirection
  | emptyInput
deriving DecidableEq

/-- Modelled from the spec: the ECC Engine `compute_ecc`, whose implementation
is missing from the source (the notebook's function body is only a docstring).
Following the spec's component design: it fails fast with `InvalidRangeError`
on `end_time < 0`, `InvalidDirectionError` on a zero `normal`, and
`EmptyInputError` on an empty `data` sequence (precondition checks taken in
the order of the spec's "Error conditions" list); otherwise it returns the
Euler characteristic sampled at `t = 0, 1, ..., end_time`, each sample being
the number of points with `proj < t` minus the number of edges whose
threshold is `< t`. -/
def compute_ecc (data : List Point3) (starting_point : Point3) (end_time : ℤ)
    (normal : Point3) : Except ECCError (List ℤ) :=
  if end_time < 0 then .error .invalidRange
  else if zeroVec normal then .error .invalidDirection
  else if data.isEmpty then .error .emptyInput
  else .ok ((List.range (end_time.toNat + 1)).map
    (fun t : ℕ => eccAt normal starting_point data ↑t))

/-- A Python exception (the stub can in principle only raise or return). -/
inductive PyExc where
  | exc
deriving DecidableEq

/-- The literal source function of the notebook: its body consists solely of a
docstring, so for every input of any type it performs no computation, raises
no exception, and returns Python `None`. -/
def compute_ecc_src {α β γ δ : Type} (data : α) (starting_point : β)
    (end_time : γ) (normal : δ) : Except PyExc (Option (List ℤ)) :=
  .ok Option.none

/-- C8: For points = [(0,0,0), (1,0,0), (2,0,0)], starting_point = (0,0,0),
normal = (1,0,0), end_time = 3, compute_ecc returns exactly [0, 1, 1, 1]. -/
theorem compute_ecc_concrete_scenario :
    compute_ecc [⟨0, 0, 0⟩, ⟨1, 0, 0⟩, ⟨2, 0, 0⟩] ⟨0, 0, 0⟩ 3 ⟨1, 0, 0⟩
      = .ok [0, 1, 1, 1] := by
  simp only [compute_ecc]
  rw [if_neg (by norm_num), if_neg (by norm_num [zeroVec]), if_neg (by norm_num)]
  show Except.ok (List.map _ [0, 1, 2, 3]) = _
  simp only [List.map_cons, List.map_nil]
  norm_num [eccAt, projList, edgeThresholds, pathEdges, edgeThreshold, proj, dot, List.filter]

/-! Helper lemmas relating the threshold-based sweep to the point/edge counts. -/

theorem pointCount_eq_filter (normal starting_point : Point3) (data : List Point3) (t : ℤ) :
    ((projList normal starting_point data).filter (fun q => decide (q < (t : ℚ)))).length
      = pointCount normal starting_point data t := by
  rw [projList, List.filter_map, List.length_map]
  rfl

theorem edgeCount_eq_filter (normal starting_point : Point3) (data : List Point3) (t : ℤ) :
    ((edgeThresholds normal starting_point data).filter (fun q => decide (q < (t : ℚ)))).length
      = edgeCount normal starting_point data t := by
  rw [edgeThresholds, List.filter_map, List.length_map, edgeCount]
  congr 1
  refine List.filter_congr fun e he => ?_
  simp only [Function.comp_apply, edgeThreshold, edgeIncludedAt, includedAt, max_lt_iff,
    Bool.decide_and]

theorem eccAt_eq_counts (normal starting_point : Point3) (data : List Point3) (t : ℤ) :
    eccAt normal starting_point data t
      = (pointCount normal starting_point data t : ℤ)
        - (edgeCount normal starting_point data t : ℤ) := by
  rw [eccAt, pointCount_eq_filter, edgeCount_eq_filter]

theorem compute_ecc_ok (data : List Point3) (starting_point : Point3) (end_time : ℤ)
    (normal : Point3) (hd : data ≠ []) (hn : zeroVec normal = false) (ht : 0 ≤ end_time) :
    compute_ecc data starting_point end_time normal
      = .ok ((List.range (end_time.toNat + 1)).map
          (fun t : ℕ => eccAt normal starting_point data ↑t)) := by
  unfold compute_ecc
  rw [if_neg (not_lt.mpr ht), if_neg (by simp [hn]), if_neg (by simp [hd])]

theorem pathEdges_mem {data : List Point3} {e : Point3 × Point3}
    (he : e ∈ pathEdges data) : e.1 ∈ data ∧ e.2 ∈ data := by
  obtain ⟨h1, h2⟩ := List.of_mem_zip (a := e.1) (b := e.2) he
  exact ⟨h1, List.mem_of_mem_tail h2⟩

theorem pathEdges_length (data : List Point3) :
    (pathEdges data).length = data.length - 1 := by
  rw [pathEdges, List.length_zip, List.length_tail]
  omega

/-- Claim C1: for every valid input (non-empty points, non-zero normal, non-negative
end_time), compute_ecc returns a sequence whose value at each sample t in 0..end_time
equals point_count(t) minus edge_count(t), with a point included at step t iff
dot(normal, p) - dot(normal, starting_point) < t and an edge counted iff both of its
endpoints are included. -/
theorem compute_ecc_counts_formula (data : List Point3) (starting_point : Point3)
    (end_time : ℤ) (normal : Point3)
    (hd : data ≠ []) (hn : zeroVec normal = false) (ht : 0 ≤ end_time) :
    ∃ l, compute_ecc data starting_point end_time normal = .ok l ∧
      ∀ t : ℕ, (t : ℤ) ≤ end_time →
        l[t]? = some ((pointCount normal starting_point data t : ℤ)
          - (edgeCount normal starting_point data t : ℤ)) := by
  refine ⟨_, compute_ecc_ok data starting_point end_time normal hd hn ht, ?_⟩
  intro t htle
  rw [List.getElem?_map, List.getElem?_range (by omega)]
  simp [eccAt_eq_counts]

theorem compute_ecc_counts_formula_witness :
    ∃ l, compute_ecc [⟨0, 0, 0⟩] ⟨0, 0, 0⟩ 0 ⟨1, 0, 0⟩ = .ok l ∧
      ∀ t : ℕ, (t : ℤ) ≤ 0 →
        l[t]? = some ((pointCount ⟨1, 0, 0⟩ ⟨0, 0, 0⟩ [⟨0, 0, 0⟩] t : ℤ)
          - (edgeCount ⟨1, 0, 0⟩ ⟨0, 0, 0⟩ [⟨0, 0, 0⟩] t : ℤ)) :=
  compute_ecc_counts_formula _ _ _ _ (by simp) (by norm_num [zeroVec]) (by norm_num)

/-- Claim C2: for every valid input, compute_ecc returns an ordered sequence of exactly
end_time + 1 integers, never a shorter, longer, or partial sequence. -/
theorem compute_ecc_length (data : List Point3) (starting_point : Point3)
    (end_time : ℤ) (normal : Point3)
    (hd : data ≠ []) (hn : zeroVec normal = false) (ht : 0 ≤ end_time) :
    ∃ l, compute_ecc data starting_point end_time normal = .ok l ∧
      (l.length : ℤ) = end_time + 1 := by
  refine ⟨_, compute_ecc_ok data starting_point end_time normal hd hn ht, ?_⟩
  simp only [List.length_map, List.length_range]
  omega

theorem compute_ecc_length_witness :
    ∃ l, compute_ecc [⟨0, 0, 0⟩] ⟨0, 0, 0⟩ 2 ⟨1, 0, 0⟩ = .ok l ∧
      (l.length : ℤ) = 2 + 1 :=
  compute_ecc_length _ _ _ _ (by simp) (by norm_num [zeroVec]) (by norm_num)

/-- Claim C3: the literal source function returns Python None for every input whatsoever
and raises no exception, since its body consists solely of a docstring. -/
theorem compute_ecc_src_returns_none {α β γ δ : Type} (data : α) (starting_point : β)
    (end_time : γ) (normal : δ) :
    compute_ecc_src data starting_point end_time normal = .ok Option.none := rfl

/-- Claim C4 counterexample: with empty points, zero normal AND negative end_time, the
engine fails with InvalidRangeError, not InvalidDirectionError, even though normal is
the zero vector — the precondition checks overlap and range is checked first. -/
theorem compute_ecc_invalid_direction_cex :
    zeroVec ⟨0, 0, 0⟩ = true ∧
    compute_ecc [] ⟨0, 0, 0⟩ (-1) ⟨0, 0, 0⟩ = .error .invalidRange ∧
    ECCError.invalidRange ≠ ECCError.invalidDirection := by
  refine ⟨by norm_num [zeroVec], ?_, by decide⟩
  unfold compute_ecc
  rw [if_pos (by norm_num)]

/-- Claim C4 (amended): for every input with non-negative end_time and zero normal,
compute_ecc fails with an InvalidDirectionError; and whenever it fails with an
InvalidDirectionError, the normal is the zero vector. -/
theorem compute_ecc_invalid_direction_amended (data : List Point3) (starting_point : Point3)
    (end_time : ℤ) (normal : Point3) :
    (0 ≤ end_time → zeroVec normal = true →
      compute_ecc data starting_point end_time normal = .error .invalidDirection)
    ∧ (compute_ecc data starting_point end_time normal = .error .invalidDirection →
      zeroVec normal = true) := by
  constructor
  · intro ht hz
    unfold compute_ecc
    rw [if_neg (not_lt.mpr ht), if_pos (by simp [hz])]
  · intro h
    by_contra hz
    rw [Bool.not_eq_true] at hz
    unfold compute_ecc at h
    rcases lt_or_le end_time 0 with he | he
    · rw [if_pos he] at h
      exact absurd h (by simp)
    · rw [if_neg (not_lt.mpr he), if_neg (by simp [hz])] at h
      split at h <;> simp at h

theorem compute_ecc_invalid_direction_amended_witness :
    compute_ecc [⟨0, 0, 0⟩] ⟨0, 0, 0⟩ 0 ⟨0, 0, 0⟩ = .error .invalidDirection ∧
    zeroVec ⟨0, 0, 0⟩ = true := by
  have h := (compute_ecc_invalid_direction_amended [⟨0, 0, 0⟩] ⟨0, 0, 0⟩ 0 ⟨0, 0, 0⟩).1
    (by norm_num) (by norm_num [zeroVec])
  exact ⟨h, (compute_ecc_invalid_direction_amended [⟨0, 0, 0⟩] ⟨0, 0, 0⟩ 0 ⟨0, 0, 0⟩).2 h⟩

/-- Claim C5: for every input with negative end_time, compute_ecc fails with an
InvalidRangeError and produces no partial result. -/
theorem compute_ecc_negative_end_time (data : List Point3) (starting_point : Point3)
    (end_time : ℤ) (normal : Point3) (h : end_time < 0) :
    compute_ecc data starting_point end_time normal = .error .invalidRange := by
  unfold compute_ecc
  rw [if_pos h]

theorem compute_ecc_negative_end_time_witness :
    compute_ecc [⟨0, 0, 0⟩] ⟨0, 0, 0⟩ (-1) ⟨1, 0, 0⟩ = .error .invalidRange :=
  compute_ecc_negative_end_time _ _ _ _ (by norm_num)

/-- Claim C6 counterexample: with empty points AND zero normal, the engine fails with
InvalidDirectionError, not EmptyInputError — the precondition checks overlap and the
direction is checked first. -/
theorem compute_ecc_empty_input_cex :
    ([] : List Point3) = [] ∧
    compute_ecc [] ⟨0, 0, 0⟩ 0 ⟨0, 0, 0⟩ = .error .invalidDirection ∧
    ECCError.invalidDirection ≠ ECCError.emptyInput := by
  refine ⟨rfl, ?_, by decide⟩
  unfold compute_ecc
  rw [if_neg (by norm_num), if_pos (by norm_num [zeroVec])]

/-- Claim C6 (amended): for every input with non-negative end_time, non-zero normal and
an empty points sequence, compute_ecc fails with an EmptyInputError and produces no
partial result. -/
theorem compute_ecc_empty_input_amended (data : List Point3) (starting_point : Point3)
    (end_time : ℤ) (normal : Point3) (ht : 0 ≤ end_time) (hn : zeroVec normal = false)
    (hd : data = []) :
    compute_ecc data starting_point end_time normal = .error .emptyInput := by
  subst hd
  unfold compute_ecc
  rw [if_neg (not_lt.mpr ht), if_neg (by simp [hn]),
    if_pos (show ([] : List Point3).isEmpty = true from rfl)]

theorem compute_ecc_empty_input_amended_witness :
    compute_ecc [] ⟨0, 0, 0⟩ 0 ⟨1, 0, 0⟩ = .error .emptyInput :=
  compute_ecc_empty_input_amended _ _ _ _ (by norm_num) (by norm_num [zeroVec]) rfl

/-- Claim C7 counterexample: for the single point (-5,0,0) swept from (0,0,0) in
direction (1,0,0) with end_time = 0, the direction is valid and every point is
included by the final step, yet the first entry of the returned sequence is 1, not 0:
the point lies behind the starting plane, so it is already included at t = 0. -/
theorem compute_ecc_endpoints_cex :
    zeroVec ⟨1, 0, 0⟩ = false ∧
    (∀ p ∈ [(⟨-5, 0, 0⟩ : Point3)], proj ⟨1, 0, 0⟩ ⟨0, 0, 0⟩ p < ((0 : ℤ) : ℚ)) ∧
    (∃ l, compute_ecc [⟨-5, 0, 0⟩] ⟨0, 0, 0⟩ 0 ⟨1, 0, 0⟩ = .ok l ∧
      l[0]? = some 1) ∧ (1 : ℤ) ≠ 0 := by
  refine ⟨by norm_num [zeroVec], by norm_num [proj, dot], ⟨[1], ?_, rfl⟩, by norm_num⟩
  unfold compute_ecc
  rw [if_neg (by norm_num), if_neg (by norm_num [zeroVec]), if_neg (by norm_num)]
  show Except.ok (List.map _ [0]) = _
  simp only [List.map_cons, List.map_nil]
  norm_num [eccAt, projList, edgeThresholds, pathEdges, edgeThreshold, proj, dot, List.filter]

/-- Claim C7 (amended): for every non-empty polyline and valid direction, whenever the
sweep starts at or before every point (all projections are non-negative) and end_time
is large enough that every point is included by the final step, the returned sequence
satisfies ECC[0] = 0 and ECC[end_time] = 1. -/
theorem compute_ecc_endpoints_amended (data : List Point3) (starting_point : Point3)
    (end_time : ℤ) (normal : Point3)
    (hd : data ≠ []) (hn : zeroVec normal = false) (ht : 0 ≤ end_time)
    (hstart : ∀ p ∈ data, 0 ≤ proj normal starting_point p)
    (hend : ∀ p ∈ data, proj normal starting_point p < (end_time : ℚ)) :
    ∃ l, compute_ecc data starting_point end_time normal = .ok l ∧
      l[0]? = some 0 ∧ l[end_time.toNat]? = some 1 := by
  refine ⟨_, compute_ecc_ok data starting_point end_time normal hd hn ht, ?_, ?_⟩
  · rw [List.getElem?_map, List.getElem?_range (by omega)]
    have hpc : pointCount normal starting_point data 0 = 0 := by
      have hnil : data.filter (includedAt normal starting_point 0) = [] := by
        refine List.filter_eq_nil_iff.mpr fun p hp => ?_
        simp only [includedAt, Int.cast_zero, decide_eq_true_eq, not_lt]
        exact hstart p hp
      simp [pointCount, hnil]
    have hec : edgeCount normal starting_point data 0 = 0 := by
      have hnil : (pathEdges data).filter (edgeIncludedAt normal starting_point 0) = [] := by
        refine List.filter_eq_nil_iff.mpr fun e he => ?_
        have h1 := (pathEdges_mem he).1
        simp only [edgeIncludedAt, includedAt, Int.cast_zero, Bool.and_eq_true,
          decide_eq_true_eq, not_and]
        intro hcontra
        exact absurd hcontra (not_lt.mpr (hstart e.1 h1))
      simp [edgeCount, hnil]
    have h0 : eccAt normal starting_point data 0 = 0 := by
      rw [eccAt_eq_counts, hpc, hec]
      norm_num
    simp only [Option.map_some', Nat.cast_zero]
    rw [h0]
  · rw [List.getElem?_map, List.getElem?_range (by omega)]
    have hpc : pointCount normal starting_point data end_time = data.length := by
      have hall : data.filter (includedAt normal starting_point end_time) = data := by
        refine List.filter_eq_self.mpr fun p hp => ?_
        simp only [includedAt, decide_eq_true_eq]
        exact hend p hp
      simp [pointCount, hall]
    have hec : edgeCount normal starting_point data end_time = data.length - 1 := by
      have hall : (pathEdges data).filter (edgeIncludedAt normal starting_point end_time)
          = pathEdges data := by
        refine List.filter_eq_self.mpr fun e he => ?_
        obtain ⟨h1, h2⟩ := pathEdges_mem he
        simp only [edgeIncludedAt, includedAt, Bool.and_eq_true, decide_eq_true_eq]
        exact ⟨hend e.1 h1, hend e.2 h2⟩
      rw [edgeCount, hall, pathEdges_length]
    have h1 : eccAt normal starting_point data ((end_time.toNat : ℕ) : ℤ) = 1 := by
      rw [Int.toNat_of_nonneg ht, eccAt_eq_counts, hpc, hec]
      have hlen : 1 ≤ data.length := List.length_pos.mpr hd
      omega
    simp only [Option.map_some']
    rw [h1]

theorem compute_ecc_endpoints_amended_witness :
    ∃ l, compute_ecc [⟨0, 0, 0⟩, ⟨1, 0, 0⟩] ⟨0, 0, 0⟩ 2 ⟨1, 0, 0⟩ = .ok l ∧
      l[0]? = some 0 ∧ l[(2 : ℤ).toNat]? = some 1 :=
  compute_ecc_endpoints_amended _ _ _ _ (by simp) (by norm_num [zeroVec]) (by norm_num)
    (by intro p hp; fin_cases hp <;> norm_num [proj, dot])
    (by intro p hp; fin_cases hp <;> norm_num [proj, dot])

/-- Claim C9: for every valid input with n points, every element of the returned ECC
sequence lies within the interval [-(n-1), n]. -/
theorem compute_ecc_bounds (data : List Point3) (starting_point : Point3)
    (end_time : ℤ) (normal : Point3)
    (hd : data ≠ []) (hn : zeroVec normal = false) (ht : 0 ≤ end_time) :
    ∃ l, compute_ecc data starting_point end_time normal = .ok l ∧
      ∀ v ∈ l, -((data.length : ℤ) - 1) ≤ v ∧ v ≤ (data.length : ℤ) := by
  refine ⟨_, compute_ecc_ok data starting_point end_time normal hd hn ht, ?_⟩
  intro v hv
  rw [List.mem_map] at hv
  obtain ⟨t, -, rfl⟩ := hv
  rw [eccAt_eq_counts]
  have hpc : pointCount normal starting_point data ↑t ≤ data.length :=
    List.length_filter_le _ _
  have hec : edgeCount normal starting_point data ↑t ≤ data.length - 1 := by
    calc ((pathEdges data).filter (edgeIncludedAt normal starting_point ↑t)).length
        ≤ (pathEdges data).length := List.length_filter_le _ _
      _ = data.length - 1 := pathEdges_length data
  have hlen : 1 ≤ data.length := List.length_pos.mpr hd
  omega

theorem compute_ecc_bounds_witness :
    ∃ l, compute_ecc [⟨0, 0, 0⟩, ⟨1, 0, 0⟩] ⟨0, 0, 0⟩ 1 ⟨1, 0, 0⟩ = .ok l ∧
      ∀ v ∈ l, -((([(⟨0, 0, 0⟩ : Point3), ⟨1, 0, 0⟩].length : ℤ)) - 1) ≤ v ∧
        v ≤ (([(⟨0, 0, 0⟩ : Point3), ⟨1, 0, 0⟩].length : ℤ)) :=
  compute_ecc_bounds _ _ _ _ (by simp) (by norm_num [zeroVec]) (by norm_num)
